import Mathlib

/-!
Shallow embedding of the HighFive type-mapping and composite-layout engine
(`include/highfive/bits/H5DataType_misc.hpp`), with theorems settling the
specification's claims about it.

Modelling conventions:
* `size_t` values are `Nat`.  Every subtraction the C++ performs is guarded by
  the same comparison as in the source, so `Nat` truncated subtraction agrees
  with `size_t` there; the one place where `% 0` could occur (the padding
  macro) is noted at its definition.
* Calls into the external HDF5 library are modelled by their documented
  observable behaviour; each such model's doc comment names the primitive.
* Functions that can throw exceptions return `Except String`, carrying the
  source's message.
-/

namespace HighFive

/-- A datatype descriptor as observed by the layout code through the HDF5
query primitives `H5Tget_class`, `H5Tget_size`, `H5Tget_nmembers` and
`H5Tget_member_type`: its class (compound, string, or any other atomic
class), its byte size, and, for compounds, the member types in order. -/
inductive DataTypeDesc : Type where
  | atomic (size : Nat) : DataTypeDesc
  | str (size : Nat) : DataTypeDesc
  | compound (size : Nat) (members : List DataTypeDesc) : DataTypeDesc

/-- Byte size of a descriptor, the value the external `H5Tget_size` reports
(it reports 0 on failure, which `h5t_get_size` below turns into a throw). -/
def DataTypeDesc.size : DataTypeDesc → Nat
  | .atomic s => s
  | .str s => s
  | .compound s _ => s

/-- Embeds `detail::h5t_get_size` (lines 40-47): queries the size and throws
`DataTypeException` when the primitive reports 0. -/
def h5t_get_size (d : DataTypeDesc) : Except String Nat :=
  if d.size = 0 then Except.error "Error getting size of datatype."
  else Except.ok d.size

/-- Embeds `find_first_atomic_member_size` (lines 377-398): on a compound,
recurse into member 0 (throwing if there are no members); on a string-class
descriptor return 1; otherwise return `h5t_get_size`. -/
def find_first_atomic_member_size : DataTypeDesc → Except String Nat
  | .compound _ [] => Except.error "No members defined for CompoundType"
  | .compound _ (m :: _) => find_first_atomic_member_size m
  | .str _ => Except.ok 1
  | .atomic s => h5t_get_size (.atomic s)

/-- Embeds the `_H5_STRUCT_PADDING(current_size, member_size)` macro
(lines 416-420).  In C++ a zero `member_size` would make `%` divide by zero
(undefined behaviour); Lean's convention `n % 0 = n` stands in for that case,
and the claims about the macro assume `member_size ≥ 1`. -/
def H5_STRUCT_PADDING (current_size member_size : Nat) : Nat :=
  if member_size ≥ current_size then
    (member_size - current_size) % member_size
  else
    (member_size - (current_size - member_size) % member_size) % member_size

/-- Mirror of `CompoundType::member_def` in the shape `CompoundType::create`
uses it.  The struct itself is declared in `H5DataType.hpp`, outside this
excerpt; the fields are exactly those the excerpt reads and writes: the
member's name, its base datatype, and its byte offset.  The offset enters
`create` with the value supplied at construction — the `std::complex`
specialization in this file builds members as
`{"r", create_datatype<T>(), 0}` and `{"i", create_datatype<T>(), sizeof(T)}`
(lines 296-306), and it defaults to zero. -/
structure MemberDef where
  name : String
  base_type : DataTypeDesc
  offset : Nat

/-- The first pass of `CompoundType::create` (lines 424-448), run only when
the requested size is zero: walking the members in declaration order with
accumulators `current_size` and `max_atomic_size`, it sets each member's
offset to `current_size + _H5_STRUCT_PADDING(current_size, first_atomic_size)`,
advances `current_size` to `offset + member_size`, and keeps the largest
`first_atomic_size` seen.  Returns the members with their new offsets and the
final values of both accumulators. -/
def CompoundType.layoutPass :
    List MemberDef → Nat → Nat → Except String (List MemberDef × Nat × Nat)
  | [], current_size, max_atomic_size =>
    Except.ok ([], current_size, max_atomic_size)
  | member :: rest, current_size, max_atomic_size =>
    match h5t_get_size member.base_type with
    | Except.error e => Except.error e
    | Except.ok member_size =>
      if member_size = 0 then
        Except.error "Cannot get size of DataType"
      else
        match find_first_atomic_member_size member.base_type with
        | Except.error e => Except.error e
        | Except.ok first_atomic_size =>
          match CompoundType.layoutPass rest
              (current_size + H5_STRUCT_PADDING current_size first_atomic_size
                + member_size)
              (max max_atomic_size first_atomic_size) with
          | Except.error e => Except.error e
          | Except.ok (out, final_size, final_max) =>
            Except.ok
              ({ member with
                  offset := current_size
                    + H5_STRUCT_PADDING current_size first_atomic_size } :: out,
                final_size, final_max)

/-- Result of `CompoundType::create`: the member list as the code leaves it
(offsets recomputed only on the implicit-size path) and the total size handed
to `H5Tcreate`. -/
structure CompoundResult where
  members : List MemberDef
  size : Nat

/-- Embeds `CompoundType::create(size_t size)` (lines 422-464).  When `size`
is zero the first pass computes the offsets and the padded total; otherwise
the member list is used exactly as it came in and `size` verbatim.  The
external `H5Tcreate(H5T_COMPOUND, size)` is modelled as failing exactly when
the requested size is zero (HDF5 requires a positive compound size);
`H5Tinsert` is modelled as succeeding, its failure conditions belonging to
the external library. -/
def CompoundType.create (members : List MemberDef) (size : Nat) :
    Except String CompoundResult :=
  match (if size = 0 then
          (CompoundType.layoutPass members 0 0).map
            (fun r => (r.1, r.2.1 + H5_STRUCT_PADDING r.2.1 r.2.2))
        else Except.ok (members, size)) with
  | Except.error e => Except.error e
  | Except.ok (ms, sz) =>
    if sz = 0 then Except.error "Could not create new compound datatype"
    else Except.ok ⟨ms, sz⟩

/-- Embeds `CompoundType::commit` (lines 468-470): the external `H5Tcommit2`
primitive is invoked — its status, negative on failure by HDF5 convention, is
the argument — and the function returns without examining it, in contrast to
every other primitive call in this file, which checks for a negative status
and throws through `HDF5ErrMapper::ToException`. -/
def CompoundType.commit (_h5tcommit2_status : Int) : Except String Unit :=
  Except.ok ()

/-- Embeds `EnumType<T>::commit` (lines 488-491): identical to
`CompoundType::commit`, the `H5Tcommit2` status is discarded. -/
def EnumType.commit (_h5tcommit2_status : Int) : Except String Unit :=
  Except.ok ()

/-- Bytes of a string, as natural numbers (the `char` values a C++ string
literal holds). -/
def strBytes (s : String) : List Nat := s.data.map Char.toNat

/-- A value-initialized `std::array<char, N>`: all bytes zero.  This is what
`datavec.emplace_back()` and `datavec.resize(length)` append. -/
def zeroed (N : Nat) : List Nat := List.replicate N 0

/-- Model of `std::memcpy(dst, src, len)` / `std::copy` into a buffer: the
first `len` bytes come from `src`, the rest of `dst` is unchanged. -/
def memcpy (dst src : List Nat) (len : Nat) : List Nat :=
  src.take len ++ dst.drop len

/-- Model of `buf[i] = v` on a byte buffer. -/
def setByte (buf : List Nat) (i v : Nat) : List Nat := buf.set i v

/-- Model of `std::strlen`: number of bytes before the first null byte. -/
def strlen (s : List Nat) : Nat := (s.takeWhile (fun b => b ≠ 0)).length

/-- Embeds `FixedLenStringArray<N>::push_back(const std::string&)`
(lines 351-357): a value-initialized element is appended,
`min(N - 1, src.length())` bytes are copied from the string, and byte
`length` is set to zero.  For `N = 0` the C++ `N - 1` would wrap to
`SIZE_MAX` and the copy would overflow the zero-sized element (undefined
behaviour); the claims therefore assume `N ≥ 1`, where `Nat` subtraction
agrees with `size_t`. -/
def FixedLenStringArray.push_back (N : Nat) (datavec : List (List Nat))
    (src : List Nat) : List (List Nat) :=
  let length := min (N - 1) src.length
  datavec ++ [setByte (memcpy (zeroed N) src length) length 0]

/-- Embeds `FixedLenStringArray<N>::push_back(const std::array<char, N>&)`
(lines 359-363): a value-initialized element is appended and `std::copy`
writes all `N` bytes of `src` over it; nothing is truncated and no
terminator is written. -/
def FixedLenStringArray.push_back_array (N : Nat) (datavec : List (List Nat))
    (src : List Nat) : List (List Nat) :=
  datavec ++ [memcpy (zeroed N) src src.length]

/-- Embeds `FixedLenStringArray<N>::getString(i)` (lines 365-368):
`std::string(datavec[i].data())` reads the element up to its first null
byte. -/
def FixedLenStringArray.getString (datavec : List (List Nat)) (i : Nat) :
    List Nat :=
  (datavec.getD i []).takeWhile (fun b => b ≠ 0)

/-- Embeds the pointer-range constructor
`FixedLenStringArray(const std::string* iter_begin, const std::string* iter_end)`
(lines 330-340), applied to the strings in the range `[iter_begin, iter_end)`:
one value-initialized element per string, each receiving
`min(N - 1, strlen(src))` copied bytes and a null byte right after them. -/
def FixedLenStringArray.ofRange (N : Nat) (strs : List (List Nat)) :
    List (List Nat) :=
  strs.map (fun src =>
    let length := min (N - 1) (strlen src)
    setByte (memcpy (zeroed N) src length) length 0)

/-- Embeds the vector constructor
`FixedLenStringArray(const std::vector<std::string>& vec)` (lines 342-344):
it delegates to the pointer-range constructor with `&vec.front()` and
`&vec.back()`.  `&vec.back()` points at the last element, so the half-open
range `[&vec.front(), &vec.back())` holds the first `vec.size() - 1` strings:
`vec.dropLast`.  (For an empty vector both pointer accesses are undefined
behaviour; the claim concerns non-empty vectors.) -/
def FixedLenStringArray.ofVector (N : Nat) (vec : List (List Nat)) :
    List (List Nat) :=
  FixedLenStringArray.ofRange N vec.dropLast

/-- Observable properties of the `DataType` handle that
`create_and_check_datatype<T>` queries: `empty()`, `isVariableStr()`,
`isReference()`, `isFixedLenStr()` and `getSize()`. -/
structure DataTypeObs where
  isEmpty : Bool
  isVariableStr : Bool
  isReference : Bool
  isFixedLenStr : Bool
  size : Nat

/-- Embeds `create_and_check_datatype<T>()` (lines 575-600), with `sizeof(T)`
passed as `sizeofT` and the built descriptor's query results as `t`. -/
def create_and_check_datatype (sizeofT : Nat) (t : DataTypeObs) :
    Except String DataTypeObs :=
  if t.isEmpty then
    Except.error "Type given to create_and_check_datatype is not valid"
  else if t.isVariableStr then Except.ok t
  else if t.isReference || t.isFixedLenStr then Except.ok t
  else if sizeofT ≠ t.size then
    Except.error "Size of array type differs from that of memory datatype"
  else Except.ok t

/-- Alignment unit in the words of the specification (section 4.3, quoted in
claim C2): for a composite, the alignment unit of its first sub-member,
recursing until a non-composite is reached; for a string-class descriptor, 1;
otherwise the descriptor's own byte size.  The specification leaves an empty
composite undefined (the recursion cannot reach a leaf); this function
returns 0 there, and the comparison theorem excludes that case.  Used only to
compare against `find_first_atomic_member_size`. -/
def alignUnitSpec : DataTypeDesc → Nat
  | .compound _ (m :: _) => alignUnitSpec m
  | .compound _ [] => 0
  | .str _ => 1
  | .atomic s => s

/-- The success condition of `find_first_atomic_member_size`: along the chain
of first members every compound is non-empty, and the leaf reached, if not a
string, has non-zero size. -/
def firstChainOk : DataTypeDesc → Bool
  | .compound _ (m :: _) => firstChainOk m
  | .compound _ [] => false
  | .str _ => true
  | .atomic s => s ≠ 0

/-- Alignment units of a member list in order, each computed by
`find_first_atomic_member_size` exactly as the first pass of
`CompoundType::create` computes `first_atomic_size`. -/
def memberAligns : List MemberDef → Except String (List Nat)
  | [] => Except.ok []
  | m :: rest =>
    match find_first_atomic_member_size m.base_type with
    | Except.error e => Except.error e
    | Except.ok a =>
      match memberAligns rest with
      | Except.error e => Except.error e
      | Except.ok as => Except.ok (a :: as)

/-- Largest alignment unit of a member list (0 if the list is empty). -/
def maxAlign (aligns : List Nat) : Nat := aligns.foldr max 0

/-! ### Helper lemmas -/

theorem pad_eq (c m : Nat) (hm : 1 ≤ m) :
    H5_STRUCT_PADDING c m = (m - c % m) % m := by
  unfold H5_STRUCT_PADDING
  split
  next h =>
    rcases Nat.lt_or_ge c m with hlt | hge
    · rw [Nat.mod_eq_of_lt hlt]
    · have hcm : c = m := le_antisymm h hge
      subst hcm
      simp [Nat.mod_self]
  next h =>
    have hcm : m ≤ c := le_of_lt (lt_of_not_ge h)
    have hsub : (c - m) % m = c % m := by
      conv_rhs => rw [← Nat.sub_add_cancel hcm]
      rw [Nat.add_mod_right]
    rw [hsub]

theorem pad_lt (c m : Nat) (hm : 1 ≤ m) : H5_STRUCT_PADDING c m < m := by
  rw [pad_eq c m hm]
  exact Nat.mod_lt _ hm

theorem pad_aligns (c m : Nat) (hm : 1 ≤ m) :
    (c + H5_STRUCT_PADDING c m) % m = 0 := by
  rw [pad_eq c m hm]
  rcases Nat.eq_zero_or_pos (c % m) with h0 | hpos
  · rw [h0, Nat.sub_zero, Nat.mod_self, Nat.add_zero]
    exact h0
  · have h1 : c % m < m := Nat.mod_lt _ hm
    have hlt : m - c % m < m := by omega
    rw [Nat.mod_eq_of_lt hlt]
    have hle : c % m ≤ c := Nat.mod_le c m
    have h2 : c + (m - c % m) = (c - c % m) + m := by omega
    rw [h2, Nat.add_mod_right]
    have h3 : c - c % m = m * (c / m) := by
      have := Nat.div_add_mod c m
      omega
    rw [h3, Nat.mul_mod_right]

theorem pad_unique (c m p : Nat) (hm : 1 ≤ m) (hp : p < m)
    (h : (c + p) % m = 0) : p = H5_STRUCT_PADDING c m := by
  have h2 := pad_aligns c m hm
  have hq := pad_lt c m hm
  have heq : (c + p) % m = (c + H5_STRUCT_PADDING c m) % m := by rw [h, h2]
  have hmod : p % m = H5_STRUCT_PADDING c m % m :=
    Nat.ModEq.add_left_cancel' c heq
  rwa [Nat.mod_eq_of_lt hp, Nat.mod_eq_of_lt hq] at hmod

/-! ### Claims -/

/-- C3: for every `align_unit ≥ 1` and every `current_size`, the two-branch
macro `_H5_STRUCT_PADDING(current_size, align_unit)` yields the unique `pad`
with `0 ≤ pad < align_unit` and `(current_size + pad) % align_unit = 0`;
that is, it rounds `current_size` up to the next multiple of `align_unit`. -/
theorem claim_C3_struct_padding (current_size align_unit : Nat)
    (h : 1 ≤ align_unit) :
    H5_STRUCT_PADDING current_size align_unit < align_unit ∧
    (current_size + H5_STRUCT_PADDING current_size align_unit) % align_unit = 0 ∧
    ∀ pad, pad < align_unit → (current_size + pad) % align_unit = 0 →
      pad = H5_STRUCT_PADDING current_size align_unit :=
  ⟨pad_lt _ _ h, pad_aligns _ _ h,
    fun _ hp hz => pad_unique _ _ _ h hp hz⟩

/-- C3 witness at `current_size = 5`, `align_unit = 4`. -/
theorem claim_C3_struct_padding_witness :
    H5_STRUCT_PADDING 5 4 < 4 ∧
    (5 + H5_STRUCT_PADDING 5 4) % 4 = 0 ∧
    ∀ pad, pad < 4 → (5 + pad) % 4 = 0 → pad = H5_STRUCT_PADDING 5 4 :=
  claim_C3_struct_padding 5 4 (by decide)

/-- C5 counterexample: with an empty member list and an explicit non-zero
size, `CompoundType::create` succeeds — the code performs no emptiness
check — refuting the claim that it fails on every empty member list in both
invocations. -/
theorem claim_C5_counterexample :
    CompoundType.create [] 8 = Except.ok ⟨[], 8⟩ := rfl

/-- C5 amended: `create` never checks for an empty member list.  With an
explicit non-zero size it succeeds on the empty list, producing an empty
compound of that size; with implicit size 0 the trailing-padding computation
reaches `0 % 0` (undefined behaviour in C++, identity in this model), the
computed total is 0, and the compound-creation primitive rejects it with the
generic `DataTypeException`, not a layout error. -/
theorem claim_C5_empty_members (size : Nat) :
    (size ≠ 0 → CompoundType.create [] size = Except.ok ⟨[], size⟩) ∧
    CompoundType.create [] 0 =
      Except.error "Could not create new compound datatype" := by
  constructor
  · intro h
    unfold CompoundType.create
    simp [h]
  · rfl

/-- C5 amended-claim witness at explicit size 8. -/
theorem claim_C5_empty_members_witness :
    CompoundType.create [] 8 = Except.ok ⟨[], 8⟩ :=
  (claim_C5_empty_members 8).1 (by decide)

/-- C4 counterexample: a 1-byte member and a 4-byte member, both entering
`create` with offset 0.  With explicit size 8 the offsets stay `[0, 0]`,
while the first-pass alignment algorithm (the implicit-size run) computes
`[0, 4]`: the explicit-size invocation does not compute offsets by the
first-pass algorithm. -/
theorem claim_C4_counterexample :
    (CompoundType.create
        [⟨"a", DataTypeDesc.atomic 1, 0⟩, ⟨"b", DataTypeDesc.atomic 4, 0⟩]
        8).map (fun r => r.members.map MemberDef.offset) = Except.ok [0, 0] ∧
    (CompoundType.create
        [⟨"a", DataTypeDesc.atomic 1, 0⟩, ⟨"b", DataTypeDesc.atomic 4, 0⟩]
        0).map (fun r => r.members.map MemberDef.offset) = Except.ok [0, 4] ∧
    (Except.ok [0, 0] : Except String (List Nat)) ≠ Except.ok [0, 4] :=
  ⟨rfl, rfl, by simp⟩

/-- C4 amended: with a non-zero explicit size, `create` uses that size
verbatim but skips the first-pass alignment algorithm entirely: every member
keeps the offset it entered with (the constructor-supplied value, default
0), and the member list is inserted unchanged. -/
theorem claim_C4_explicit_size (members : List MemberDef) (size : Nat)
    (h : size ≠ 0) :
    CompoundType.create members size = Except.ok ⟨members, size⟩ := by
  unfold CompoundType.create
  simp [h]

/-- C4 amended-claim witness. -/
theorem claim_C4_explicit_size_witness :
    CompoundType.create
        [⟨"a", DataTypeDesc.atomic 1, 0⟩, ⟨"b", DataTypeDesc.atomic 4, 0⟩]
        8 =
      Except.ok ⟨[⟨"a", DataTypeDesc.atomic 1, 0⟩,
        ⟨"b", DataTypeDesc.atomic 4, 0⟩], 8⟩ :=
  claim_C4_explicit_size _ 8 (by decide)

/-- C9 evidence: on a failing commit primitive (negative status, the HDF5
failure convention), both `CompoundType::commit` and `EnumType::commit`
return normally — the status is discarded, the failure is not surfaced. -/
theorem claim_C9_commit_ignores_status :
    CompoundType.commit (-1) = Except.ok () ∧
    EnumType.commit (-1) = Except.ok () :=
  ⟨rfl, rfl⟩

/-- C6: `create_and_check_datatype` fails when the built descriptor is
empty; returns it with no size check whatsoever when it is a
variable-length string, a reference, or a fixed-length string; and
otherwise succeeds exactly when `sizeof(T)` equals the descriptor's byte
size, failing with the size-mismatch error when they differ. -/
theorem claim_C6_create_and_check (sizeofT : Nat) (t : DataTypeObs) :
    (t.isEmpty = true →
      create_and_check_datatype sizeofT t =
        Except.error "Type given to create_and_check_datatype is not valid") ∧
    (t.isEmpty = false →
      (t.isVariableStr || t.isReference || t.isFixedLenStr) = true →
      create_and_check_datatype sizeofT t = Except.ok t) ∧
    (t.isEmpty = false → t.isVariableStr = false → t.isReference = false →
      t.isFixedLenStr = false →
      ((sizeofT = t.size → create_and_check_datatype sizeofT t = Except.ok t) ∧
       (sizeofT ≠ t.size →
         create_and_check_datatype sizeofT t =
           Except.error
             "Size of array type differs from that of memory datatype"))) := by
  refine ⟨?_, ?_, ?_⟩
  · intro h
    simp [create_and_check_datatype, h]
  · intro h hb
    unfold create_and_check_datatype
    rcases Bool.eq_false_or_eq_true t.isVariableStr with hv | hv <;>
      rcases Bool.eq_false_or_eq_true t.isReference with hr | hr <;>
        rcases Bool.eq_false_or_eq_true t.isFixedLenStr with hf | hf <;>
          simp_all
  · intro h hv hr hf
    constructor <;> intro hs <;> simp [create_and_check_datatype, h, hv, hr, hf, hs]

/-- C6 witness: a 4-byte non-string, non-reference descriptor checked
against `sizeof(T) = 4`. -/
theorem claim_C6_create_and_check_witness :
    create_and_check_datatype 4 ⟨false, false, false, false, 4⟩ =
      Except.ok ⟨false, false, false, false, 4⟩ :=
  ((claim_C6_create_and_check 4 ⟨false, false, false, false, 4⟩).2.2
    rfl rfl rfl rfl).1 rfl

theorem setByte_at_zero (pre : List Nat) (n : Nat) (hn : 1 ≤ n) :
    setByte (pre ++ List.replicate n 0) pre.length 0 =
      pre ++ List.replicate n 0 := by
  unfold setByte
  induction pre with
  | nil =>
    cases n with
    | zero => omega
    | succ k => simp [List.replicate_succ]
  | cons a as ih => simp [ih]

theorem setByte_append_zero (pre : List Nat) (k n : Nat) (hk : pre.length = k)
    (hn : 1 ≤ n) :
    setByte (pre ++ List.replicate n 0) k 0 = pre ++ List.replicate n 0 := by
  subst hk
  exact setByte_at_zero pre n hn

/-- Shape of the element `push_back(const std::string&)` stores: the first
`min(N - 1, length(src))` bytes of the string, a null byte right after
them, and zero-fill up to `N`. -/
theorem push_back_elem (N : Nat) (hN : 1 ≤ N) (datavec : List (List Nat))
    (src : List Nat) :
    FixedLenStringArray.push_back N datavec src =
      datavec ++ [src.take (min (N - 1) src.length) ++
        0 :: List.replicate (N - min (N - 1) src.length - 1) 0] := by
  simp only [FixedLenStringArray.push_back, memcpy, zeroed]
  have hL : min (N - 1) src.length ≤ N - 1 := Nat.min_le_left _ _
  have hLr : min (N - 1) src.length ≤ src.length := Nat.min_le_right _ _
  rw [List.drop_replicate]
  have hlen : (src.take (min (N - 1) src.length)).length =
      min (N - 1) src.length := by
    rw [List.length_take]
    exact Nat.min_eq_left hLr
  rw [setByte_append_zero _ _ _ hlen (by omega)]
  have hsplit : List.replicate (N - min (N - 1) src.length) (0 : Nat) =
      0 :: List.replicate (N - min (N - 1) src.length - 1) 0 := by
    have hstep : N - min (N - 1) src.length =
        (N - min (N - 1) src.length - 1) + 1 := by omega
    conv_lhs => rw [hstep]
    rw [List.replicate_succ]
  rw [hsplit]

/-- C7: `push_back(const std::string&)` always appends exactly one element
holding the first `min(N - 1, length(src))` bytes of the input followed by
a null byte at index `min(N - 1, length(src)) ≤ N - 1`, without error; for
`N = 8` and input "HelloWorld" the stored element is "HelloWo" followed by
a null byte, and `getString` on it returns "HelloWo". -/
theorem claim_C7_push_back_truncates (N : Nat) (hN : 1 ≤ N)
    (datavec : List (List Nat)) (src : List Nat) :
    FixedLenStringArray.push_back N datavec src =
      datavec ++ [src.take (min (N - 1) src.length) ++
        0 :: List.replicate (N - min (N - 1) src.length - 1) 0] ∧
    min (N - 1) src.length + 1 ≤ N ∧
    FixedLenStringArray.push_back 8 [] (strBytes "HelloWorld") =
      [strBytes "HelloWo" ++ [0]] ∧
    FixedLenStringArray.getString
        (FixedLenStringArray.push_back 8 [] (strBytes "HelloWorld")) 0 =
      strBytes "HelloWo" :=
  ⟨push_back_elem N hN datavec src,
    by have := Nat.min_le_left (N - 1) src.length; omega, rfl, rfl⟩

/-- C7 witness: the "HelloWorld" instance. -/
theorem claim_C7_push_back_truncates_witness :
    FixedLenStringArray.push_back 8 [] (strBytes "HelloWorld") =
      [strBytes "HelloWo" ++ [0]] :=
  (claim_C7_push_back_truncates 8 (by decide) [] (strBytes "HelloWorld")).2.2.1

/-- C8 evidence at the failing input: the vector holding the single string
"ab" (so k = 1).  The vector constructor hands `&vec.front(), &vec.back()`
to the pointer-range constructor; `&vec.back()` points at the last element,
so the half-open range holds only the first k - 1 strings.  k = 1 yields no
element at all, and k = 2 yields one element (the first string, correctly
truncated and terminated) instead of two. -/
theorem claim_C8_vector_ctor_drops_last :
    FixedLenStringArray.ofVector 8 [strBytes "ab"] = [] ∧
    FixedLenStringArray.ofVector 8 [strBytes "ab", strBytes "cd"] =
      [[97, 98, 0, 0, 0, 0, 0, 0]] :=
  ⟨rfl, rfl⟩

theorem getD_append_at_length (l : List (List Nat)) (x : List Nat) :
    (l ++ [x]).getD l.length [] = x := by
  induction l with
  | nil => rfl
  | cons a as ih => simp [ih]

/-- C10: the `std::array<char, N>` overload of `push_back` stores all `N`
input bytes unchanged — no truncation, no null terminator added — so the
stored element is exactly the input array (and in particular contains a
null byte only where the input did). -/
theorem claim_C10_push_back_array (N : Nat) (datavec : List (List Nat))
    (src : List Nat) (h : src.length = N) :
    FixedLenStringArray.push_back_array N datavec src = datavec ++ [src] ∧
    (FixedLenStringArray.push_back_array N datavec src).getD
      datavec.length [] = src ∧
    ((FixedLenStringArray.push_back_array N datavec src).getD
      datavec.length []).length = N := by
  have helem : memcpy (zeroed N) src src.length = src := by
    unfold memcpy zeroed
    rw [List.take_length, ← h, List.drop_replicate]
    simp
  refine ⟨?_, ?_, ?_⟩
  · unfold FixedLenStringArray.push_back_array
    rw [helem]
  · unfold FixedLenStringArray.push_back_array
    rw [helem]
    exact getD_append_at_length datavec src
  · unfold FixedLenStringArray.push_back_array
    rw [helem, getD_append_at_length datavec src, h]

/-- C10 witness: a 3-byte array with an embedded null byte and no trailing
null is stored verbatim. -/
theorem claim_C10_push_back_array_witness :
    FixedLenStringArray.push_back_array 3 [] [1, 0, 2] = [[1, 0, 2]] :=
  (claim_C10_push_back_array 3 [] [1, 0, 2] (by decide)).1

theorem h5t_get_size_ok (d : DataTypeDesc) (n : Nat)
    (h : h5t_get_size d = Except.ok n) : n = d.size ∧ 1 ≤ n := by
  unfold h5t_get_size at h
  split at h
  next hs => exact absurd h (by simp)
  next hs =>
    simp only [Except.ok.injEq] at h
    omega

/-- Whenever `find_first_atomic_member_size` succeeds, its result is at
least 1 (string leaves give 1, other leaves pass the non-zero size
check). -/
theorem ffams_pos (d : DataTypeDesc) (n : Nat)
    (h : find_first_atomic_member_size d = Except.ok n) : 1 ≤ n := by
  induction d using find_first_atomic_member_size.induct generalizing n with
  | case1 s => simp [find_first_atomic_member_size] at h
  | case2 s m rest ih => exact ih n h
  | case3 s =>
    simp only [find_first_atomic_member_size, Except.ok.injEq] at h
    omega
  | case4 s =>
    simp only [find_first_atomic_member_size] at h
    exact (h5t_get_size_ok _ _ h).2

/-- C2: on every descriptor whose size queries succeed and whose
first-member chain reaches a leaf, `find_first_atomic_member_size` computes
exactly the specification's alignment unit — first-sub-member recursion
through composites, 1 for string-class descriptors, the descriptor's own
byte size otherwise — and the structural recursion stops at the first
non-composite, non-string leaf. -/
theorem claim_C2_alignment_unit (d : DataTypeDesc)
    (h : firstChainOk d = true) :
    find_first_atomic_member_size d = Except.ok (alignUnitSpec d) := by
  induction d using find_first_atomic_member_size.induct with
  | case1 s => simp [firstChainOk] at h
  | case2 s m rest ih =>
    have h' : firstChainOk m = true := by simpa [firstChainOk] using h
    have hm := ih h'
    simp [find_first_atomic_member_size, alignUnitSpec, hm]
  | case3 s => rfl
  | case4 s =>
    have hs : s ≠ 0 := by simpa [firstChainOk] using h
    simp [find_first_atomic_member_size, h5t_get_size, DataTypeDesc.size,
      alignUnitSpec, hs]

/-- C2 witness on a nested composite whose first leaf is a 4-byte atom. -/
theorem claim_C2_alignment_unit_witness :
    find_first_atomic_member_size
        (DataTypeDesc.compound 12
          [DataTypeDesc.compound 8 [DataTypeDesc.atomic 4, DataTypeDesc.str 3],
           DataTypeDesc.atomic 8]) =
      Except.ok 4 :=
  (claim_C2_alignment_unit
    (DataTypeDesc.compound 12
      [DataTypeDesc.compound 8 [DataTypeDesc.atomic 4, DataTypeDesc.str 3],
       DataTypeDesc.atomic 8]) rfl).trans rfl

theorem foldr_max_init (l : List Nat) (a b : Nat) :
    l.foldr max (max a b) = max b (l.foldr max a) := by
  induction l with
  | nil => exact Nat.max_comm a b
  | cons x xs ih =>
    rw [List.foldr_cons, List.foldr_cons, ih, Nat.max_left_comm]

theorem le_foldr_max (l : List Nat) (x : Nat) (h : x ∈ l) :
    x ≤ l.foldr max 0 := by
  induction l with
  | nil => simp at h
  | cons y ys ih =>
    rcases List.mem_cons.mp h with rfl | h'
    · exact Nat.le_max_left _ _
    · exact le_trans (ih h') (Nat.le_max_right _ _)

theorem memberAligns_pos (ms : List MemberDef) :
    ∀ as, memberAligns ms = Except.ok as → ∀ x ∈ as, 1 ≤ x := by
  induction ms with
  | nil =>
    intro as h x hx
    simp only [memberAligns, Except.ok.injEq] at h
    subst h
    simp at hx
  | cons m rest ih =>
    intro as h x hx
    unfold memberAligns at h
    cases hf : find_first_atomic_member_size m.base_type with
    | error e => rw [hf] at h; exact absurd h (by simp)
    | ok a =>
      rw [hf] at h
      cases hr : memberAligns rest with
      | error e => rw [hr] at h; exact absurd h (by simp)
      | ok as' =>
        rw [hr] at h
        simp only [Except.ok.injEq] at h
        subst h
        rcases List.mem_cons.mp hx with rfl | hx'
        · exact ffams_pos _ _ hf
        · exact ih as' hr x hx'

/-- Invariants of the first pass of `CompoundType::create`, by induction
along the member list with general accumulators: the running size never
decreases; the produced members are in strictly separated offset order;
each produced offset lies between the incoming and the final running size
with its member fitting below the final running size; and the final
`max_atomic_size` is the fold of the members' alignment units over the
incoming accumulator. -/
theorem layoutPass_ok (ms : List MemberDef) :
    ∀ (c a : Nat) (out : List MemberDef) (c' a' : Nat),
      CompoundType.layoutPass ms c a = Except.ok (out, c', a') →
      c ≤ c' ∧
      List.Pairwise
        (fun x y => x.offset + x.base_type.size ≤ y.offset) out ∧
      (∀ x ∈ out, c ≤ x.offset ∧ x.offset + x.base_type.size ≤ c') ∧
      ∃ as, memberAligns ms = Except.ok as ∧ a' = as.foldr max a ∧
        as.length = ms.length := by
  induction ms with
  | nil =>
    intro c a out c' a' h
    simp only [CompoundType.layoutPass, Except.ok.injEq, Prod.mk.injEq] at h
    obtain ⟨h1, h2, h3⟩ := h
    subst h1; subst h2; subst h3
    exact ⟨le_refl c, List.Pairwise.nil, by simp, [], rfl, rfl, rfl⟩
  | cons member rest ih =>
    intro c a out c' a' h
    unfold CompoundType.layoutPass at h
    cases hg : h5t_get_size member.base_type with
    | error e => rw [hg] at h; exact absurd h (by simp)
    | ok member_size =>
      rw [hg] at h
      dsimp only at h
      obtain ⟨hsz, hsz1⟩ := h5t_get_size_ok _ _ hg
      rw [if_neg (by omega)] at h
      cases hf : find_first_atomic_member_size member.base_type with
      | error e => rw [hf] at h; exact absurd h (by simp)
      | ok fas =>
        rw [hf] at h
        dsimp only at h
        cases hr : CompoundType.layoutPass rest
            (c + H5_STRUCT_PADDING c fas + member_size) (max a fas) with
        | error e => rw [hr] at h; exact absurd h (by simp)
        | ok trip =>
          obtain ⟨out', c'', a''⟩ := trip
          rw [hr] at h
          dsimp only at h
          simp only [Except.ok.injEq, Prod.mk.injEq] at h
          obtain ⟨hout, hc, ha⟩ := h
          subst hout; subst hc; subst ha
          obtain ⟨hcle, hpw, hall, as', has', hfold, hlen⟩ :=
            ih (c + H5_STRUCT_PADDING c fas + member_size) (max a fas)
              out' c'' a'' hr
          refine ⟨?_, ?_, ?_, fas :: as', ?_, ?_, ?_⟩
          · omega
          · refine List.pairwise_cons.mpr ⟨fun y hy => ?_, hpw⟩
            have h1 := (hall y hy).1
            show c + H5_STRUCT_PADDING c fas + member.base_type.size ≤ y.offset
            omega
          · intro x hx
            rcases List.mem_cons.mp hx with rfl | hx'
            · refine ⟨?_, ?_⟩
              · show c ≤ c + H5_STRUCT_PADDING c fas
                omega
              · show c + H5_STRUCT_PADDING c fas + member.base_type.size ≤ c''
                omega
            · obtain ⟨hx1, hx2⟩ := hall x hx'
              exact ⟨by omega, hx2⟩
          · simp [memberAligns, hf, has']
          · rw [List.foldr_cons, ← foldr_max_init as' a fas]
            exact hfold
          · simp [hlen]

/-- C1: for every non-empty member list on which the implicit-size
`CompoundType::create` succeeds, the built compound satisfies the four
layout invariants: member offsets non-decreasing in declaration order;
every member's `offset + size(base)` at most the total size; pairwise
disjoint `[offset, offset + size)` byte ranges; and the total size a
multiple of the largest alignment unit among the members. -/
theorem claim_C1_layout_invariants (members : List MemberDef)
    (res : CompoundResult) (aligns : List Nat) (hne : members ≠ [])
    (h : CompoundType.create members 0 = Except.ok res)
    (ha : memberAligns members = Except.ok aligns) :
    List.Pairwise (fun x y => x.offset ≤ y.offset) res.members ∧
    (∀ x ∈ res.members, x.offset + x.base_type.size ≤ res.size) ∧
    List.Pairwise (fun x y =>
      x.offset + x.base_type.size ≤ y.offset ∨
      y.offset + y.base_type.size ≤ x.offset) res.members ∧
    res.size % maxAlign aligns = 0 := by
  unfold CompoundType.create at h
  rw [if_pos rfl] at h
  cases hl : CompoundType.layoutPass members 0 0 with
  | error e =>
    rw [hl] at h
    exact absurd h (by simp [Except.map])
  | ok trip =>
    obtain ⟨ms, csz, am⟩ := trip
    rw [hl] at h
    simp only [Except.map] at h
    split at h
    next => exact absurd h (by simp)
    next hsz0 =>
      simp only [Except.ok.injEq] at h
      subst h
      obtain ⟨hcle, hpw, hall, as, has, hfold, hlen⟩ :=
        layoutPass_ok members 0 0 ms csz am hl
      have haseq : as = aligns := by
        rw [has] at ha
        exact (Except.ok.injEq _ _).mp ha
      subst haseq
      have ham1 : 1 ≤ am := by
        cases as with
        | nil => exact absurd (List.eq_nil_of_length_eq_zero hlen.symm) hne
        | cons a0 as0 =>
          have h0 : 1 ≤ a0 :=
            memberAligns_pos members _ has a0 (List.mem_cons_self _ _)
          have h1 : a0 ≤ (a0 :: as0).foldr max 0 :=
            le_foldr_max _ _ (List.mem_cons_self _ _)
          omega
      refine ⟨?_, ?_, ?_, ?_⟩
      · exact hpw.imp (fun hxy => le_trans (Nat.le_add_right _ _) hxy)
      · intro x hx
        have h2 := (hall x hx).2
        show x.offset + x.base_type.size ≤ csz + H5_STRUCT_PADDING csz am
        omega
      · exact hpw.imp (fun hxy => Or.inl hxy)
      · have ham : maxAlign as = am := hfold.symm
        rw [ham]
        exact pad_aligns csz am ham1

/-- C1 witness: the 1-byte-then-4-byte example under implicit size; the
computed layout is offsets 0 and 4, total size 8, alignment units 1 and
4. -/
theorem claim_C1_layout_invariants_witness :
    List.Pairwise (fun x y => x.offset ≤ y.offset)
      ([⟨"a", DataTypeDesc.atomic 1, 0⟩,
        ⟨"b", DataTypeDesc.atomic 4, 4⟩] : List MemberDef) ∧
    (∀ x ∈ ([⟨"a", DataTypeDesc.atomic 1, 0⟩,
        ⟨"b", DataTypeDesc.atomic 4, 4⟩] : List MemberDef),
      x.offset + x.base_type.size ≤ 8) ∧
    List.Pairwise (fun x y =>
      x.offset + x.base_type.size ≤ y.offset ∨
      y.offset + y.base_type.size ≤ x.offset)
      ([⟨"a", DataTypeDesc.atomic 1, 0⟩,
        ⟨"b", DataTypeDesc.atomic 4, 4⟩] : List MemberDef) ∧
    (8 : Nat) % maxAlign [1, 4] = 0 :=
  claim_C1_layout_invariants
    [⟨"a", DataTypeDesc.atomic 1, 0⟩, ⟨"b", DataTypeDesc.atomic 4, 0⟩]
    ⟨[⟨"a", DataTypeDesc.atomic 1, 0⟩, ⟨"b", DataTypeDesc.atomic 4, 4⟩], 8⟩
    [1, 4] (by simp) rfl rfl

